import Mathlib

/-!
Shallow embedding of the cellular-automaton core of `src/Mirror/2.5D.py`
(the `states` table, the `lookup` array and the vectorized `update_grid`),
together with theorems settling the spec's claims about it.

The vectorized NumPy code is re-expressed per cell.  The essential NumPy
semantics are modelled exactly:
  * `np.roll(grid, di, axis=0)` evaluated at row `r` reads row `(r - di) % rows`;
  * `np.rint` rounds half to even; all intermediate float32 values here are
    integers up to 72 and quotients of such by denominators up to 36, for
    which float32 arithmetic is exact enough that rounding agrees with exact
    rational round-half-to-even, so the model uses exact arithmetic;
  * `lookup` is initialized to -1 and written once per state (last write wins);
  * `random.choice` is modelled by a caller-supplied choice function
    (the seeded random source), one draw per Nill cell.
-/

/-- The 21 weight triples of the `states` table, in table order
(Red, Pink, Infrared, Orange, Thalo, Camo, Lime, Cyan, Violet, Ultraviolet,
Blue, Cerulean, Indigo, Magenta, Chartreuse, Aqua, Yellow, Mustard,
Null, Nill, N/A). -/
def weightsTable : List (Nat × Nat × Nat) :=
  [(1,0,0), (2,0,1), (2,1,1), (2,1,0), (0,2,1), (1,2,1), (0,1,0), (0,1,1), (1,0,2),
   (2,1,2), (0,0,1), (0,1,2), (1,1,2), (1,0,1), (1,2,0), (1,2,2), (1,1,0), (2,2,1),
   (0,0,0), (2,2,2), (1,1,1)]

/-- `num_states = len(states)`. -/
def numStates : Nat := weightsTable.length

/-- Special state indices, as in the source. -/
def NULL_IDX : Int := 18

/-- Index of the stochastic state Nill. -/
def NILL_IDX : Int := 19

/-- Index of the twist state N/A. -/
def NA_IDX : Int := 20

/-- `weights[i]`: the weight triple of state `i` (grid entries are int32,
so the argument is an `Int`; on valid grids it is in `[0,20]`). -/
def weightOf (v : Int) : Nat × Nat × Nat :=
  (weightsTable.get? v.toNat).getD (0, 0, 0)

/-- The `lookup` array: weight triple to state index, built exactly as in the
source by starting from `-1` everywhere and writing `idx` for each state in
enumeration order (last write wins). -/
def lookupW (w : Nat × Nat × Nat) : Int :=
  (List.range numStates).foldl
    (fun acc i => if weightsTable.get? i = some w then (i : Int) else acc) (-1)

/-- The 3x3 neighborhood offsets, in source order. -/
def offsets : List (Int × Int) :=
  [(-1,-1), (-1,0), (-1,1), (0,-1), (0,0), (0,1), (1,-1), (1,0), (1,1)]

/-- Horizontal selector of the coefficient computation:
`a` if `dj = -1`, `b` if `dj = 0`, `c` if `dj = 1` (the nested `np.where`). -/
def hor (w : Nat × Nat × Nat) (dj : Int) : Nat :=
  if dj = -1 then w.1 else if dj = 0 then w.2.1 else w.2.2

/-- Vertical selector: `a` if `di = -1`, `b` if `di = 0`, `c` if `di = 1`. -/
def ver (w : Nat × Nat × Nat) (di : Int) : Nat :=
  if di = -1 then w.1 else if di = 0 then w.2.1 else w.2.2

/-- Coefficient at an offset: `hor * ver`, both selected from the center
cell's own weight triple. -/
def coeff (w : Nat × Nat × Nat) (o : Int × Int) : Nat := hor w o.2 * ver w o.1

/-- `total_filter`: the sum of the 9 coefficients (it depends only on the
center cell's weight triple). -/
def totalFilter (w : Nat × Nat × Nat) : Nat := (offsets.map (coeff w)).sum

/-- A grid of state indices: dimensions plus the entry function.  Entries are
read at indices below `rows`/`cols`; neighbor access wraps via `wrap`. -/
structure Grid where
  rows : Nat
  cols : Nat
  cell : Nat → Nat → Int

/-- Toroidal index reduction, Python/NumPy style: `i mod n` is nonnegative
for positive `n`. -/
def wrap (n : Nat) (i : Int) : Nat := (i % (n : Int)).toNat

/-- The entry of `np.roll(np.roll(grid, di, axis=0), dj, axis=1)` at `(r, c)`:
rolling by `(di, dj)` reads `grid[(r - di) % rows, (c - dj) % cols]`. -/
def rolledCell (g : Grid) (o : Int × Int) (r c : Nat) : Int :=
  g.cell (wrap g.rows ((r : Int) - o.1)) (wrap g.cols ((c : Int) - o.2))

/-- `weighted_sum` at cell `(r, c)`: the per-offset accumulation
`weighted_sum += coeff * weights[rolled]` of the source, componentwise. -/
def weightedSum (g : Grid) (r c : Nat) : Nat × Nat × Nat :=
  offsets.foldl
    (fun acc o =>
      let k := coeff (weightOf (g.cell r c)) o
      let nw := weightOf (rolledCell g o r c)
      (acc.1 + k * nw.1, acc.2.1 + k * nw.2.1, acc.2.2 + k * nw.2.2))
    (0, 0, 0)

/-- Round-half-to-even division of naturals: the value of
`np.rint(num / den)` for the (exactly representable) quantities that occur in
`update_grid`. -/
def rintDiv (num den : Nat) : Nat :=
  let q := num / den
  let r := num % den
  if 2 * r < den then q
  else if den < 2 * r then q + 1
  else if q % 2 = 0 then q else q + 1

/-- `new_components` at cell `(r, c)`: the rounded weighted average where
`total_filter` is nonzero, else the cell's own weight triple. -/
def newComponents (g : Grid) (r c : Nat) : Nat × Nat × Nat :=
  let w := weightOf (g.cell r c)
  let tf := totalFilter w
  let ws := weightedSum g r c
  if tf ≠ 0 then (rintDiv ws.1 tf, rintDiv ws.2.1 tf, rintDiv ws.2.2 tf)
  else w

/-- `new_state_default`: the table lookup of the rounded weighted average. -/
def newStateDefault (g : Grid) (r c : Nat) : Int := lookupW (newComponents g r c)

/-- The componentwise twist `(x + 1) mod 3` applied to N/A cells. -/
def twist (w : Nat × Nat × Nat) : Nat × Nat × Nat :=
  ((w.1 + 1) % 3, (w.2.1 + 1) % 3, (w.2.2 + 1) % 3)

/-- The choice list built by the Nill loop at cell `(y, x)`: the values
`grid[(y + di) % rows, (x + dj) % cols]` over all 9 offsets (the source loop
does not exclude the center offset `(0,0)`) that are not `NULL_IDX`, in
offset order. -/
def nillChoices (g : Grid) (r c : Nat) : List Int :=
  offsets.filterMap (fun o =>
    let v := g.cell (wrap g.rows ((r : Int) + o.1)) (wrap g.cols ((c : Int) + o.2))
    if v ≠ NULL_IDX then some v else none)

/-- The value `update_grid` writes at one cell.  The four writes of the
source (default, Null overwrite, N/A overwrite, Nill loop) act on disjoint
cell sets, so they appear here as one per-cell case split in overwrite
order. -/
def updateCell (g : Grid) (choose : Nat → Nat → List Int → Int) (r c : Nat) : Int :=
  let v := g.cell r c
  if v = NULL_IDX then v
  else if v = NA_IDX then lookupW (twist (newComponents g r c))
  else if v = NILL_IDX then
    let cs := nillChoices g r c
    if cs ≠ [] then choose r c cs else v
  else newStateDefault g r c

/-- One generation of `update_grid`.  `choose` is the random source: the draw
used by `random.choice` at a Nill cell, keyed by the cell's coordinates (the
source consumes one draw per Nill cell from the global `random` state; keying
draws by coordinates models a seeded source supplying each cell's draw). -/
def updateGrid (g : Grid) (choose : Nat → Nat → List Int → Int) : Grid where
  rows := g.rows
  cols := g.cols
  cell := updateCell g choose

/-- A grid built from a rectangular list of rows (row-major). -/
def mkGrid (l : List (List Int)) : Grid where
  rows := l.length
  cols := (l.headD []).length
  cell := fun r c => (((l.get? r).getD []).get? c).getD 0

/-- Validity of a grid: every entry is a state index in `[0, 20]`. -/
abbrev Grid.Valid (g : Grid) : Prop :=
  ∀ r, r < g.rows → ∀ c, c < g.cols → 0 ≤ g.cell r c ∧ g.cell r c ≤ 20

/-- Validity of a random source: on a nonempty choice list it returns one of
its elements (the semantics of `random.choice`). -/
def ValidChoose (choose : Nat → Nat → List Int → Int) : Prop :=
  ∀ r c l, l ≠ [] → choose r c l ∈ l

/-- A concrete random source: always pick the first element. -/
def chooseHead : Nat → Nat → List Int → Int := fun _ _ l => l.headD 0

/-- The neighbor read as the spec's section 4.1 words it: the cell at
`((r + di) mod rows, (c + dj) mod cols)` for offset `(di, dj)`. -/
def specNeighbor (g : Grid) (r c : Nat) (o : Int × Int) : Int :=
  g.cell (wrap g.rows ((r : Int) + o.1)) (wrap g.cols ((c : Int) + o.2))

/-- The weighted sum as the spec's section 4.1 words it: for each component,
the sum over the 9 offsets of the coefficient at that offset times the
weight component of the neighbor at `((r + di) mod rows, (c + dj) mod cols)`. -/
def specWeightedSum (g : Grid) (r c : Nat) : Nat × Nat × Nat :=
  ((offsets.map fun o => coeff (weightOf (g.cell r c)) o * (weightOf (specNeighbor g r c o)).1).sum,
   (offsets.map fun o => coeff (weightOf (g.cell r c)) o * (weightOf (specNeighbor g r c o)).2.1).sum,
   (offsets.map fun o => coeff (weightOf (g.cell r c)) o * (weightOf (specNeighbor g r c o)).2.2).sum)

/-- The neighbor the rolled code actually pairs with the coefficient at
offset `(di, dj)`: the cell at `((r - di) mod rows, (c - dj) mod cols)`. -/
def rolledNeighbor (g : Grid) (r c : Nat) (o : Int × Int) : Int :=
  g.cell (wrap g.rows ((r : Int) - o.1)) (wrap g.cols ((c : Int) - o.2))

/-- The spec formula amended to the code's direction: the coefficient at
offset `(di, dj)` multiplies the weight of the neighbor at
`((r - di) mod rows, (c - dj) mod cols)`. -/
def specWeightedSumAmended (g : Grid) (r c : Nat) : Nat × Nat × Nat :=
  ((offsets.map fun o => coeff (weightOf (g.cell r c)) o * (weightOf (rolledNeighbor g r c o)).1).sum,
   (offsets.map fun o => coeff (weightOf (g.cell r c)) o * (weightOf (rolledNeighbor g r c o)).2.1).sum,
   (offsets.map fun o => coeff (weightOf (g.cell r c)) o * (weightOf (rolledNeighbor g r c o)).2.2).sum)

/-- An all-`X` grid of the given dimensions. -/
def uniformGrid (rows cols : Nat) (X : Int) : Grid where
  rows := rows
  cols := cols
  cell := fun _ _ => X

/-- A 3x3 grid, all cells state `X` except an N/A center. -/
def naGrid (X : Nat) : Grid :=
  mkGrid [[X, X, X], [X, 20, X], [X, X, X]]

/-- Valid 3x3 grid sending a cell outside `[0, 20]`: Magenta center with the
four diagonally-read corners Blue, Blue, Cerulean, Violet; its rounded
weighted average at the center is the unmapped triple `(0, 0, 2)`. -/
def badGrid : Grid := mkGrid [[10, 0, 10], [0, 13, 0], [11, 0, 8]]

/-- The 3x3 grid of the spec's end-to-end scenario: all Red except a Blue
center. -/
def redBlueGrid : Grid := mkGrid [[0, 0, 0], [0, 10, 0], [0, 0, 0]]

/-- A 3x3 grid whose Red center has a Blue cell up-left and a Lime cell
down-right, separating the two directions of the weighted sum. -/
def dirGrid : Grid := mkGrid [[10, 0, 0], [0, 0, 0], [0, 0, 6]]

/-- A 3x3 grid with a Nill center whose 8 neighbors are all Null except one
Red cell. -/
def nillOneGrid : Grid := mkGrid [[18, 18, 18], [18, 19, 18], [18, 18, 0]]

/-- A 3x3 grid with a Nill center and all 8 neighbors Null. -/
def nillNullGrid : Grid := mkGrid [[18, 18, 18], [18, 19, 18], [18, 18, 18]]

/-- All 27 triples over 0..2, the index space of the `lookup` array. -/
def allTriples : List (Nat × Nat × Nat) :=
  (List.range 3).flatMap fun a =>
    (List.range 3).flatMap fun b => (List.range 3).map fun c => (a, b, c)

/-! ## Helper lemmas -/

theorem headD_mem {l : List Int} (h : l ≠ []) : l.headD 0 ∈ l := by
  cases l with
  | nil => exact absurd rfl h
  | cons a t => simp

theorem chooseHead_valid : ValidChoose chooseHead := by
  intro r c l h
  exact headD_mem h

theorem wrap_coe {n : Nat} (r : Nat) (h : r < n) : wrap n (r : Int) = r := by
  unfold wrap
  rw [Int.emod_eq_of_lt (by positivity) (by exact_mod_cast h)]
  exact Int.toNat_natCast r

theorem updateGrid_cell (g : Grid) (choose : Nat → Nat → List Int → Int) (r c : Nat) :
    (updateGrid g choose).cell r c = updateCell g choose r c := rfl

theorem updateCell_null {g : Grid} (choose : Nat → Nat → List Int → Int) {r c : Nat}
    (h : g.cell r c = NULL_IDX) : updateCell g choose r c = NULL_IDX := by
  simp [updateCell, h]

theorem updateCell_na {g : Grid} (choose : Nat → Nat → List Int → Int) {r c : Nat}
    (h : g.cell r c = NA_IDX) :
    updateCell g choose r c = lookupW (twist (newComponents g r c)) := by
  simp [updateCell, h, NULL_IDX, NA_IDX]

theorem updateCell_nill {g : Grid} (choose : Nat → Nat → List Int → Int) {r c : Nat}
    (h : g.cell r c = NILL_IDX) (hne : nillChoices g r c ≠ []) :
    updateCell g choose r c = choose r c (nillChoices g r c) := by
  simp [updateCell, h, hne, NULL_IDX, NA_IDX, NILL_IDX]

theorem updateCell_ordinary {g : Grid} (choose : Nat → Nat → List Int → Int) {r c : Nat}
    (h18 : g.cell r c ≠ NULL_IDX) (h20 : g.cell r c ≠ NA_IDX) (h19 : g.cell r c ≠ NILL_IDX) :
    updateCell g choose r c = newStateDefault g r c := by
  simp [updateCell, h18, h19, h20]

theorem totalFilter_sq (w : Nat × Nat × Nat) :
    totalFilter w = (w.1 + w.2.1 + w.2.2) ^ 2 := by
  simp [totalFilter, offsets, coeff, hor, ver]
  ring

theorem rintDiv_mul (d x : Nat) (h : d ≠ 0) : rintDiv (d * x) d = x := by
  unfold rintDiv
  have h1 : d * x / d = x := Nat.mul_div_cancel_left x (Nat.pos_of_ne_zero h)
  have h2 : d * x % d = 0 := Nat.mul_mod_right d x
  simp [h1, h2, Nat.pos_of_ne_zero h]

theorem lookupW_weightOf : ∀ i : Nat, i ≤ 20 → lookupW (weightOf (i : Int)) = (i : Int) := by
  decide

theorem tf_ne_zero : ∀ X : Nat, X ≤ 17 → totalFilter (weightOf (X : Int)) ≠ 0 := by
  decide

theorem tf_zero_iff_null_cell (g : Grid) (hv : g.Valid) (r c : Nat)
    (hr : r < g.rows) (hc : c < g.cols) :
    (totalFilter (weightOf (g.cell r c)) = 0 ↔ g.cell r c = NULL_IDX) := by
  obtain ⟨h0, h20⟩ := hv r hr c hc
  have key : ∀ n : Nat, n ≤ 20 →
      (totalFilter (weightOf (n : Int)) = 0 ↔ (n : Int) = NULL_IDX) := by decide
  have hk := key (g.cell r c).toNat (by omega)
  rwa [Int.toNat_of_nonneg h0] at hk

/-! ## Claim theorems -/

/-- C5: for every grid, every random source and every cell whose current
state is Null (index 18), the cell's state after `update_grid` is still Null,
unconditionally. -/
theorem null_cell_absorbing (g : Grid) (choose : Nat → Nat → List Int → Int)
    (r c : Nat) (hr : r < g.rows) (hc : c < g.cols) (h : g.cell r c = NULL_IDX) :
    (updateGrid g choose).cell r c = NULL_IDX := by
  rw [updateGrid_cell]
  exact updateCell_null choose h

/-- Witness for C5: the Null corner of `nillNullGrid` stays Null. -/
theorem null_cell_absorbing_witness :
    (updateGrid nillNullGrid chooseHead).cell 0 0 = NULL_IDX :=
  null_cell_absorbing nillNullGrid chooseHead 0 0 (by decide) (by decide) (by decide)

/-- C8: the 21-entry state table has pairwise distinct weight triples,
covering exactly 21 of the 27 triples over 0..2, and looking up the weight
triple of any state index in the weight-to-state table returns that index. -/
theorem state_table_injective_roundtrip :
    weightsTable.Nodup ∧
    weightsTable.length = 21 ∧
    allTriples.length = 27 ∧
    (allTriples.filter (fun t => weightsTable.contains t)).length = 21 ∧
    (∀ i : Nat, i ≤ 20 → lookupW (weightOf (i : Int)) = (i : Int)) :=
  ⟨by decide, by decide, by decide, by decide, lookupW_weightOf⟩

/-- Witness for C8 at state index 5 (Camo). -/
theorem state_table_injective_roundtrip_witness :
    lookupW (weightOf (5 : Int)) = (5 : Int) :=
  state_table_injective_roundtrip.2.2.2.2 5 (by decide)

/-- C9: `update_grid` is deterministic given its two inputs, the grid and the
random source: equal random-source states give identical output grids. -/
theorem updateGrid_deterministic (g : Grid)
    (ch1 ch2 : Nat → Nat → List Int → Int) (h : ch1 = ch2) :
    updateGrid g ch1 = updateGrid g ch2 := by rw [h]

/-- Witness for C9: two runs on `nillOneGrid` with the same source agree. -/
theorem updateGrid_deterministic_witness :
    updateGrid nillOneGrid chooseHead = updateGrid nillOneGrid chooseHead :=
  updateGrid_deterministic nillOneGrid chooseHead chooseHead rfl

/-- C10: for every cell, `total_filter` is the square of the sum of that
cell's own weight triple; on valid grids it vanishes exactly on Null cells;
and a cell with `total_filter = 0` is overwritten to Null in the output, so
the zero-filter fallback never determines a returned cell. -/
theorem totalFilter_square_null_fallback :
    (∀ (g : Grid) (r c : Nat),
        totalFilter (weightOf (g.cell r c)) =
          ((weightOf (g.cell r c)).1 + (weightOf (g.cell r c)).2.1 +
            (weightOf (g.cell r c)).2.2) ^ 2) ∧
    (∀ g : Grid, g.Valid → ∀ r, r < g.rows → ∀ c, c < g.cols →
        (totalFilter (weightOf (g.cell r c)) = 0 ↔ g.cell r c = NULL_IDX)) ∧
    (∀ (g : Grid) (choose : Nat → Nat → List Int → Int), g.Valid →
        ∀ r, r < g.rows → ∀ c, c < g.cols →
        totalFilter (weightOf (g.cell r c)) = 0 →
        (updateGrid g choose).cell r c = NULL_IDX) := by
  refine ⟨fun g r c => totalFilter_sq _, fun g hv r hr c hc => ?_, ?_⟩
  · exact tf_zero_iff_null_cell g hv r c hr hc
  · intro g choose hv r hr c hc htf
    have hnull : g.cell r c = NULL_IDX :=
      (tf_zero_iff_null_cell g hv r c hr hc).mp htf
    rw [updateGrid_cell]
    exact updateCell_null choose hnull

/-- Witness for C10 on the all-Null-border grid at its Null corner. -/
theorem totalFilter_square_null_fallback_witness :
    totalFilter (weightOf (nillNullGrid.cell 0 0)) = 0 ↔
      nillNullGrid.cell 0 0 = NULL_IDX :=
  totalFilter_square_null_fallback.2.1 nillNullGrid (by decide) 0 (by decide) 0
    (by decide)

/-- C1 (refuted by the code, spec is the intent): `badGrid` is a valid grid,
every entry in 0..20, yet `update_grid` writes `-1` at its center: the
rounded weighted average there is the triple `(0, 0, 2)`, one of the six
triples the `lookup` array leaves at its `-1` initialization. -/
theorem update_escapes_valid_range :
    ValidChoose chooseHead ∧ badGrid.Valid ∧
    (updateGrid badGrid chooseHead).cell 1 1 = -1 ∧
    ¬ (0 ≤ (updateGrid badGrid chooseHead).cell 1 1 ∧
        (updateGrid badGrid chooseHead).cell 1 1 ≤ 20) :=
  ⟨chooseHead_valid, by decide, by decide, by decide⟩

/-- C3 counterexample: on `dirGrid` the code's weighted sum at the Red
center is the weight of the down-right neighbor (Lime), not of the up-left
neighbor (Blue) that the spec's offset direction selects, so the code's
`weighted_sum` differs from the spec's section 4.1 formula. -/
theorem weightedSum_direction_counterexample :
    dirGrid.Valid ∧ weightedSum dirGrid 1 1 ≠ specWeightedSum dirGrid 1 1 :=
  ⟨by decide, by decide⟩

/-- C3 amended: the code's `weighted_sum` satisfies the spec formula with
the neighbor location negated: the coefficient at offset `(di, dj)`
multiplies the weight of the cell at `((r - di) mod rows, (c - dj) mod cols)`
(the cell from which `np.roll` by `(di, dj)` brings the value to `(r, c)`). -/
theorem weightedSum_eq_spec_amended (g : Grid) (r c : Nat) :
    weightedSum g r c = specWeightedSumAmended g r c := by
  simp only [weightedSum, specWeightedSumAmended, offsets, rolledNeighbor, rolledCell,
    List.foldl_cons, List.foldl_nil, List.map_cons, List.map_nil, List.sum_cons,
    List.sum_nil]
  refine Prod.ext ?_ (Prod.ext ?_ ?_) <;> simp <;> ring

/-- C4 counterexample: on the all-Red-except-Blue-center 3x3 torus, border
cell `(0, 0)` is Red before the step but Blue after it (its Red weight mask
puts the whole vote on the one diagonal read that sees the Blue center), so
not all 8 border cells remain Red. -/
theorem redBlue_border_counterexample :
    redBlueGrid.Valid ∧ redBlueGrid.cell 0 0 = 0 ∧
    (updateGrid redBlueGrid chooseHead).cell 0 0 = 10 ∧ (10 : Int) ≠ 0 :=
  ⟨by decide, by decide, by decide, by decide⟩

/-- C4 amended: after one step of the all-Red-except-Blue-center 3x3 torus,
the center goes to the table lookup of its rounded weighted average (which is
Red), 7 of the 8 border cells remain Red, and border cell `(0, 0)` becomes
Blue; the random source is never consulted. -/
theorem redBlue_step_amended (choose : Nat → Nat → List Int → Int) :
    (updateGrid redBlueGrid choose).cell 1 1 = newStateDefault redBlueGrid 1 1 ∧
    (updateGrid redBlueGrid choose).cell 1 1 = 0 ∧
    (updateGrid redBlueGrid choose).cell 0 0 = 10 ∧
    (updateGrid redBlueGrid choose).cell 0 1 = 0 ∧
    (updateGrid redBlueGrid choose).cell 0 2 = 0 ∧
    (updateGrid redBlueGrid choose).cell 1 0 = 0 ∧
    (updateGrid redBlueGrid choose).cell 1 2 = 0 ∧
    (updateGrid redBlueGrid choose).cell 2 0 = 0 ∧
    (updateGrid redBlueGrid choose).cell 2 1 = 0 ∧
    (updateGrid redBlueGrid choose).cell 2 2 = 0 :=
  ⟨rfl, rfl, rfl, rfl, rfl, rfl, rfl, rfl, rfl, rfl⟩

theorem nill_mem_choices {g : Grid} {r c : Nat} (hr : r < g.rows) (hc : c < g.cols)
    (h : g.cell r c = NILL_IDX) : NILL_IDX ∈ nillChoices g r c := by
  unfold nillChoices
  rw [List.mem_filterMap]
  refine ⟨(0, 0), by simp [offsets], ?_⟩
  simp [wrap_coe r hr, wrap_coe c hc, h, NILL_IDX, NULL_IDX]

/-- C2 counterexample: `nillOneGrid` has a Nill center with exactly one
non-Null neighbor, Red; yet under the valid random source `chooseHead` the
next center state is Nill, not Red — the source's choice list also contains
the center's own (non-Null) Nill state. -/
theorem nill_choice_counterexample :
    ValidChoose chooseHead ∧
    nillOneGrid.cell 1 1 = NILL_IDX ∧ nillOneGrid.cell 2 2 = 0 ∧
    (updateGrid nillOneGrid chooseHead).cell 1 1 = NILL_IDX ∧
    NILL_IDX ≠ (0 : Int) :=
  ⟨chooseHead_valid, by decide, by decide, by decide, by decide⟩

/-- C2 amended: a Nill cell's next state is drawn from the non-Null entries
of the whole 3x3 toroidal block including the center itself, which (being
Nill, hence non-Null) is always available; so with exactly one non-Null
neighbor of state `Y` the next state is `Y` or Nill depending on the draw,
and with all 8 neighbors Null the next state is Nill on every draw. -/
theorem nill_choice_amended :
    (∀ (g : Grid) (choose : Nat → Nat → List Int → Int) (r c : Nat),
        ValidChoose choose → r < g.rows → c < g.cols → g.cell r c = NILL_IDX →
        NILL_IDX ∈ nillChoices g r c ∧
        (updateGrid g choose).cell r c ∈ nillChoices g r c) ∧
    (∀ choose : Nat → Nat → List Int → Int, ValidChoose choose →
        ((updateGrid nillOneGrid choose).cell 1 1 = NILL_IDX ∨
          (updateGrid nillOneGrid choose).cell 1 1 = 0)) ∧
    (∀ choose : Nat → Nat → List Int → Int, ValidChoose choose →
        (updateGrid nillNullGrid choose).cell 1 1 = NILL_IDX) := by
  refine ⟨?_, ?_, ?_⟩
  · intro g choose r c hch hr hc h
    have hm := nill_mem_choices hr hc h
    have hne : nillChoices g r c ≠ [] := List.ne_nil_of_mem hm
    refine ⟨hm, ?_⟩
    rw [updateGrid_cell, updateCell_nill choose h hne]
    exact hch r c _ hne
  · intro choose hch
    have hlist : nillChoices nillOneGrid 1 1 = [NILL_IDX, 0] := by decide
    have hne : nillChoices nillOneGrid 1 1 ≠ [] := by rw [hlist]; decide
    rw [updateGrid_cell, updateCell_nill choose (by decide) hne]
    have hmem := hch 1 1 (nillChoices nillOneGrid 1 1) hne
    rw [hlist] at hmem ⊢
    simpa using hmem
  · intro choose hch
    have hlist : nillChoices nillNullGrid 1 1 = [NILL_IDX] := by decide
    have hne : nillChoices nillNullGrid 1 1 ≠ [] := by rw [hlist]; decide
    rw [updateGrid_cell, updateCell_nill choose (by decide) hne]
    have hmem := hch 1 1 (nillChoices nillNullGrid 1 1) hne
    rw [hlist] at hmem ⊢
    simpa using hmem

/-- Witness for C2 amended: with all 8 neighbors Null and the `chooseHead`
source, the Nill center stays Nill. -/
theorem nill_choice_amended_witness :
    (updateGrid nillNullGrid chooseHead).cell 1 1 = NILL_IDX :=
  nill_choice_amended.2.2 chooseHead chooseHead_valid

theorem naGrid_center_step : ∀ X : Nat, X ≤ 17 →
    lookupW (twist (newComponents (naGrid X) 1 1)) =
      lookupW (twist (weightOf (X : Int))) := by
  decide

/-- C6: an N/A cell's next state is the table lookup of the twist
`(k + 1) mod 3` of its rounded weighted-average triple; in particular an N/A
cell whose 8 toroidal neighbors all carry one ordinary state `X` steps to the
lookup of the componentwise twist of `X`'s weight, hence to the state with
that weight whenever one exists. -/
theorem na_twist_rule :
    (∀ (g : Grid) (choose : Nat → Nat → List Int → Int) (r c : Nat),
        r < g.rows → c < g.cols → g.cell r c = NA_IDX →
        (updateGrid g choose).cell r c = lookupW (twist (newComponents g r c))) ∧
    (∀ X : Nat, X ≤ 17 → ∀ choose : Nat → Nat → List Int → Int,
        (updateGrid (naGrid X) choose).cell 1 1 =
          lookupW (twist (weightOf (X : Int)))) ∧
    (∀ X : Nat, X ≤ 17 → ∀ i : Nat, i ≤ 20 →
        weightOf (i : Int) = twist (weightOf (X : Int)) →
        lookupW (twist (weightOf (X : Int))) = (i : Int)) := by
  refine ⟨?_, ?_, ?_⟩
  · intro g choose r c hr hc h
    rw [updateGrid_cell]
    exact updateCell_na choose h
  · intro X hX choose
    have hna : (naGrid X).cell 1 1 = NA_IDX := rfl
    rw [updateGrid_cell, updateCell_na choose hna]
    exact naGrid_center_step X hX
  · decide

/-- Witness for C6: an N/A cell surrounded by Red (weight one-zero-zero)
steps to the lookup of the twisted triple, which is Infrared (index 2). -/
theorem na_twist_rule_witness :
    (updateGrid (naGrid 0) chooseHead).cell 1 1 =
      lookupW (twist (weightOf (0 : Int))) :=
  na_twist_rule.2.1 0 (by decide) chooseHead

theorem wrap_lt {n : Nat} (h : 0 < n) (i : Int) : wrap n i < n := by
  unfold wrap
  have hn : (0 : Int) < (n : Int) := by exact_mod_cast h
  have h1 : 0 ≤ i % (n : Int) := Int.emod_nonneg i (by omega)
  have h2 : i % (n : Int) < (n : Int) := Int.emod_lt_of_pos i hn
  omega

theorem weightedSum_const {g : Grid} {X : Int}
    (hu : ∀ r', r' < g.rows → ∀ c', c' < g.cols → g.cell r' c' = X)
    {r c : Nat} (hr : r < g.rows) (hc : c < g.cols) :
    weightedSum g r c =
      (totalFilter (weightOf X) * (weightOf X).1,
       totalFilter (weightOf X) * (weightOf X).2.1,
       totalFilter (weightOf X) * (weightOf X).2.2) := by
  have hrow : 0 < g.rows := Nat.pos_of_ne_zero (by omega)
  have hcol : 0 < g.cols := Nat.pos_of_ne_zero (by omega)
  have hcenter : g.cell r c = X := hu r hr c hc
  have hroll : ∀ o : Int × Int, rolledCell g o r c = X := fun o =>
    hu _ (wrap_lt hrow _) _ (wrap_lt hcol _)
  simp only [weightedSum, totalFilter, offsets, hroll, hcenter,
    List.foldl_cons, List.foldl_nil, List.map_cons, List.map_nil, List.sum_cons,
    List.sum_nil]
  refine Prod.ext ?_ (Prod.ext ?_ ?_) <;> simp <;> ring

/-- C7: a grid all of whose cells carry one ordinary state `X` is a fixed
point of `update_grid`: every cell of the output equals the corresponding
input cell, for any random source. -/
theorem uniform_ordinary_fixed_point (g : Grid) (X : Nat)
    (choose : Nat → Nat → List Int → Int) (r c : Nat) (hX : X ≤ 17)
    (hu : ∀ r', r' < g.rows → ∀ c', c' < g.cols → g.cell r' c' = (X : Int))
    (hr : r < g.rows) (hc : c < g.cols) :
    (updateGrid g choose).cell r c = g.cell r c := by
  have hcell : g.cell r c = (X : Int) := hu r hr c hc
  have h18 : g.cell r c ≠ NULL_IDX := by rw [hcell]; unfold NULL_IDX; omega
  have h19 : g.cell r c ≠ NILL_IDX := by rw [hcell]; unfold NILL_IDX; omega
  have h20 : g.cell r c ≠ NA_IDX := by rw [hcell]; unfold NA_IDX; omega
  rw [updateGrid_cell, updateCell_ordinary choose h18 h20 h19, hcell]
  have htf := tf_ne_zero X hX
  simp only [newStateDefault, newComponents, hcell, weightedSum_const hu hr hc,
    htf, ne_eq, not_false_iff, if_true, rintDiv_mul _ _ htf]
  exact lookupW_weightOf X (by omega)

/-- Witness for C7: a 2x3 all-Camo grid is unchanged at cell one-two. -/
theorem uniform_ordinary_fixed_point_witness :
    (updateGrid (uniformGrid 2 3 (5 : Int)) chooseHead).cell 1 2 =
      (uniformGrid 2 3 (5 : Int)).cell 1 2 :=
  uniform_ordinary_fixed_point (uniformGrid 2 3 (5 : Int)) 5 chooseHead 1 2
    (by decide) (by decide) (by decide) (by decide)
